import Mathlib

/-!
Verification of the job-queue core of `app.py` (Flask + SQLAlchemy database
controller).  The `jobs` table rows are modelled by the structure `Job`; the
worker routes `claim_job`, `job_progress`, `job_complete` and `job_fail` are
modelled as pure functions on a `Job` (respectively on a `List Job` for the
claim, which scans the table).  JSON column values (`payload`, `result`) are
modelled by the inductive type `JsonVal`; a SQL `NULL` in a JSON column is
`JsonVal.jnull`, matching Python `None` both in truthiness and in storage.
Clock reads (`datetime.utcnow()` / `now()`) are passed in as a `Nat` argument
`now`.
-/

/-- JSON-ish values stored in the `payload` and `result` columns.  `jnull`
doubles as the SQL NULL / Python `None` of a nullable JSON column. -/
inductive JsonVal where
  | jnull : JsonVal
  | jbool : Bool → JsonVal
  | jnum : Int → JsonVal
  | jstr : String → JsonVal
  | jarr : List JsonVal → JsonVal
  | jobj : List (String × JsonVal) → JsonVal
deriving Repr

/-- Python truthiness of a JSON value: `None`, `False`, `0`, `""`, `[]` and
`\x7b\x7d` are falsy, everything else truthy.  Used by `job.result or \x7b\x7d`
and by `if message:`. -/
def pyTruthy : JsonVal → Bool
  | JsonVal.jnull => false
  | JsonVal.jbool b => b
  | JsonVal.jnum n => n != 0
  | JsonVal.jstr s => s != ""
  | JsonVal.jarr xs => !xs.isEmpty
  | JsonVal.jobj fs => !fs.isEmpty

/-- Python dict read `d.get(k)`: the value at the first (only) occurrence of
the key, if present. -/
def objGet (fs : List (String × JsonVal)) (k : String) : Option JsonVal :=
  match fs with
  | [] => none
  | (k', v) :: rest => if k' = k then some v else objGet rest k

/-- Python dict write `d[k] = v`: update the value in place if the key exists
(keeping its position), otherwise append the new key at the end, as Python
dicts do. -/
def objSet (fs : List (String × JsonVal)) (k : String) (v : JsonVal) :
    List (String × JsonVal) :=
  match fs with
  | [] => [(k, v)]
  | (k', v') :: rest => if k' = k then (k, v) :: rest else (k', v') :: objSet rest k v

/-- One row of the `jobs` table (model of `class Job(db.Model)`). -/
structure Job where
  id : Nat
  queue : String
  owner : Option String
  payload : JsonVal
  status : String
  progress : Int
  result : JsonVal
  attempts : Int
  max_retries : Int
  worker_id : Option String
  created_at : Nat
  updated_at : Nat
deriving Repr

/-- Model of `create_job` (POST /jobs): inserts a fresh row with
`status="pending"` and the column defaults (`progress=0`, `attempts=0`,
`result` NULL, `worker_id` NULL, both timestamps the current time). -/
def create_job (store : List Job) (id : Nat) (queue : String) (owner : Option String)
    (payload : JsonVal) (max_retries : Int) (now : Nat) : List Job :=
  store ++ [{ id := id, queue := queue, owner := owner, payload := payload,
              status := "pending", progress := 0, result := JsonVal.jnull,
              attempts := 0, max_retries := max_retries, worker_id := none,
              created_at := now, updated_at := now }]

/-- The row update performed by a successful claim: `status = "processing",
worker_id = :worker_id, attempts = attempts + 1, updated_at = now()`. -/
def claimUpdate (j : Job) (worker_id : String) (now : Nat) : Job :=
  { j with status := "processing", worker_id := some worker_id,
           attempts := j.attempts + 1, updated_at := now }

/-- The dialect test `dialect in ("postgresql", "cockroachdb")` that selects
the SKIP LOCKED branch of the claim handler. -/
def isPgDialect (dialect : String) : Bool :=
  dialect = "postgresql" ∨ dialect = "cockroachdb"

/-- Model of `claim_job` (POST /jobs/claim), sequential semantics.  Both
branches select the row with `queue = :queue AND status = "pending"`
minimising `created_at` (`ORDER BY created_at ASC ... LIMIT 1`); if none,
the handler returns `none` (HTTP 204); otherwise the stored row receives
`claimUpdate` in both branches.  The branches differ in the record placed in
the response: on the fallback branch the handler commits and returns the
updated ORM object, but on the Postgres/CockroachDB branch the response is
built from `Job.query.get(job_id)`, which runs on the session connection
while the `engine.begin()` transaction holding the UPDATE has not yet
committed — under READ COMMITTED that plain SELECT sees only committed data,
so the handler returns the stale pre-update row (the updated `new_row`
fetched on the claiming connection is never used).  The transaction commits
when the `with` block exits, so the stored table is updated either way. -/
def claim_job (dialect : String) (store : List Job) (queue : String)
    (worker_id : String) (now : Nat) : Option (Job × List Job) :=
  match (store.filter fun j => j.queue = queue ∧ j.status = "pending").argmin
      (fun j => j.created_at) with
  | none => none
  | some j =>
    let j' := claimUpdate j worker_id now
    let store' := store.map fun x => if x.id = j.id then j' else x
    if isPgDialect dialect then some (j, store') else some (j', store')

/-- The `\x7bts, msg\x7d` entry appended by a progress message. -/
def logEntry (ts m : String) : JsonVal :=
  JsonVal.jobj [("ts", JsonVal.jstr ts), ("msg", JsonVal.jstr m)]

/-- The dict the message branch of `job_progress` works on:
`existing = job.result or \x7b\x7d` when that value is a dict, `none` when it
is truthy but not a dict (Python would raise `AttributeError` on `.get`). -/
def resultFields (r : JsonVal) : Option (List (String × JsonVal)) :=
  match (if pyTruthy r then r else JsonVal.jobj []) with
  | JsonVal.jobj fs => some fs
  | _ => none

/-- Python `existing.get("logs", [])` restricted to list results: `some xs`
when the key is absent (`xs = []`) or holds a list `xs`; `none` when the key
holds a non-list (Python would raise on `.append`). -/
def getLogsList (fs : List (String × JsonVal)) : Option (List JsonVal) :=
  match objGet fs "logs" with
  | some (JsonVal.jarr xs) => some xs
  | none => some []
  | some _ => none

/-- The message branch of `job_progress`: `existing = job.result or \x7b\x7d;
logs = existing.get("logs", []); logs.append(...); existing["logs"] = logs`.
When `job.result` is truthy but not a dict, or its `logs` entry is not a list,
the Python code raises and the request aborts without committing; this is the
`Except.error` case. -/
def appendLog (r : JsonVal) (ts m : String) : Except Unit JsonVal :=
  match resultFields r with
  | some fs =>
    match getLogsList fs with
    | some xs =>
      Except.ok (JsonVal.jobj (objSet fs "logs" (JsonVal.jarr (xs ++ [logEntry ts m]))))
    | none => Except.error ()
  | none => Except.error ()

/-- Model of `job_progress` (POST /jobs/id/progress) acting on the targeted
row: if `progress` is supplied it is stored as given (the code performs no
range check); if `message` is supplied and non-empty (Python `if message:`)
one log entry is appended via `appendLog`; finally `updated_at` is refreshed.
The row is returned unchanged-or-updated; a type error in the log branch
aborts the request without committing any change. -/
def job_progress (job : Job) (progress : Option Int) (message : Option String)
    (now : Nat) : Except Unit Job :=
  let newProgress := progress.getD job.progress
  match message with
  | some m =>
    if m = "" then Except.ok { job with progress := newProgress, updated_at := now }
    else
      match appendLog job.result (toString now) m with
      | Except.ok r =>
        Except.ok { job with progress := newProgress, result := r, updated_at := now }
      | Except.error e => Except.error e
  | none => Except.ok { job with progress := newProgress, updated_at := now }

/-- Model of `job_complete` (POST /jobs/id/complete) acting on the targeted
row: `result = body.get("result", \x7b\x7d)` (the input is `none` when the
field is omitted, defaulting to the empty object), then unconditionally
`status="completed"`, `progress=100`, `result` replaced, `updated_at`
refreshed.  The code performs no check of the current status. -/
def job_complete (job : Job) (result : Option JsonVal) (now : Nat) : Job :=
  { job with status := "completed", progress := 100,
             result := result.getD (JsonVal.jobj []), updated_at := now }

/-- Model of `job_fail` (POST /jobs/id/fail) acting on the targeted row:
`error = body.get("error", "unknown error")`, then unconditionally
`status="failed"`, `result` replaced by the error object, `updated_at`
refreshed.  The code performs no check of the current status and leaves
`progress` untouched. -/
def job_fail (job : Job) (error : String) (now : Nat) : Job :=
  { job with status := "failed",
             result := JsonVal.jobj [("error", JsonVal.jstr error)],
             updated_at := now }

/-- Extract the list of log entries a progress message would operate on:
`some xs` when `result or \x7b\x7d` is a dict whose `logs` key is absent
(then `xs = []`) or holds a list `xs`; `none` when the Python code would
raise. -/
def logsOf (r : JsonVal) : Option (List JsonVal) :=
  match resultFields r with
  | some fs => getLogsList fs
  | none => none

/-- A concrete pending job used in concrete instantiations. -/
def samplePending : Job :=
  { id := 1, queue := "render", owner := none, payload := JsonVal.jobj [("x", JsonVal.jnum 1)],
    status := "pending", progress := 0, result := JsonVal.jnull,
    attempts := 0, max_retries := 3, worker_id := none,
    created_at := 10, updated_at := 10 }

/-- A concrete processing job whose result already holds one log entry. -/
def sampleProcessing : Job :=
  { id := 2, queue := "render", owner := none, payload := JsonVal.jnull,
    status := "processing", progress := 20,
    result := JsonVal.jobj [("logs", JsonVal.jarr [logEntry "t0" "started"])],
    attempts := 1, max_retries := 3, worker_id := some "w1",
    created_at := 4, updated_at := 6 }

/-! ### Helper lemmas -/

theorem job_progress_ok_fields {job : Job} {p : Option Int} {m : Option String}
    {now : Nat} {j2 : Job} (h : job_progress job p m now = Except.ok j2) :
    j2.id = job.id ∧ j2.queue = job.queue ∧ j2.status = job.status ∧
    j2.attempts = job.attempts ∧ j2.created_at = job.created_at ∧
    j2.updated_at = now ∧ j2.worker_id = job.worker_id ∧
    j2.progress = p.getD job.progress := by
  unfold job_progress at h
  cases m with
  | none =>
    simp only [Except.ok.injEq] at h
    subst h
    simp
  | some msg =>
    simp only at h
    by_cases hm : msg = ""
    · subst hm
      rw [if_pos rfl] at h
      simp only [Except.ok.injEq] at h
      subst h
      simp
    · rw [if_neg hm] at h
      cases hA : appendLog job.result (toString now) msg with
      | ok r =>
        simp only [hA, Except.ok.injEq] at h
        subst h
        simp
      | error e => simp only [hA] at h; cases h

theorem claim_job_eq_some {dialect : String} {store : List Job} {queue wid : String}
    {now : Nat} {j' : Job} {store' : List Job}
    (h : claim_job dialect store queue wid now = some (j', store')) :
    ∃ j, (store.filter fun x => x.queue = queue ∧ x.status = "pending").argmin
        (fun x => x.created_at) = some j ∧
      store' = (store.map fun x => if x.id = j.id then claimUpdate j wid now else x) ∧
      (isPgDialect dialect = true → j' = j) ∧
      (isPgDialect dialect = false → j' = claimUpdate j wid now) := by
  unfold claim_job at h
  cases harg : (store.filter fun x => x.queue = queue ∧ x.status = "pending").argmin
      (fun x => x.created_at) with
  | none => rw [harg] at h; cases h
  | some j =>
    rw [harg] at h
    simp only at h
    cases hd : isPgDialect dialect with
    | true =>
      rw [hd, if_pos rfl] at h
      simp only [Option.some.injEq, Prod.mk.injEq] at h
      exact ⟨j, rfl, h.2.symm, fun _ => h.1.symm, fun hf => Bool.noConfusion hf⟩
    | false =>
      rw [hd, if_neg Bool.false_ne_true] at h
      simp only [Option.some.injEq, Prod.mk.injEq] at h
      exact ⟨j, rfl, h.2.symm, fun ht => Bool.noConfusion ht, fun _ => h.1.symm⟩

theorem claim_job_frame {dialect : String} {store : List Job} {queue wid : String}
    {now : Nat} {j' : Job} {store' : List Job}
    (h : claim_job dialect store queue wid now = some (j', store')) :
    ∃ j, j ∈ store ∧ j.queue = queue ∧ j.status = "pending" ∧
      claimUpdate j wid now ∈ store' ∧
      (isPgDialect dialect = true → j' = j) ∧
      (isPgDialect dialect = false → j' = claimUpdate j wid now) ∧
      ∀ x, x ∈ store' → x = claimUpdate j wid now ∨ x ∈ store := by
  obtain ⟨j, harg, hstore', hpg, hfb⟩ := claim_job_eq_some h
  have hmem : j ∈ store.filter fun x => x.queue = queue ∧ x.status = "pending" :=
    List.argmin_mem (Option.mem_def.mpr harg)
  obtain ⟨hjs, hpred⟩ := List.mem_filter.mp hmem
  simp only [decide_eq_true_eq] at hpred
  refine ⟨j, hjs, hpred.1, hpred.2, ?_, hpg, hfb, ?_⟩
  · subst hstore'
    exact List.mem_map.mpr ⟨j, hjs, by rw [if_pos rfl]⟩
  · subst hstore'
    intro x hx
    obtain ⟨a, ha, hax⟩ := List.mem_map.mp hx
    by_cases hid : a.id = j.id
    · left; rw [if_pos hid] at hax; exact hax.symm
    · right; rw [if_neg hid] at hax; exact hax ▸ ha

/-! ### Claim theorems -/

/-- Claim C1, counterexample: `job_complete` and `job_fail` applied to a
`pending` job do not report an invalid transition and do not leave the record
unchanged — they overwrite `status` unconditionally. -/
theorem complete_fail_on_pending_overwrites :
    samplePending.status = "pending" ∧
    (job_complete samplePending none 5).status = "completed" ∧
    (job_fail samplePending "boom" 5).status = "failed" :=
  ⟨rfl, rfl, rfl⟩

/-- Claim C1, amended: `job_complete` and `job_fail` succeed on any existing
job regardless of its current status; there is no InvalidTransition check, and
the status is overwritten unconditionally to `completed` respectively
`failed`. -/
theorem complete_fail_unconditional :
    ∀ (job : Job) (res : Option JsonVal) (e : String) (now : Nat),
      (job_complete job res now).status = "completed" ∧
      (job_fail job e now).status = "failed" :=
  fun _ _ _ _ => ⟨rfl, rfl⟩

/-- Claim C2, counterexample: `job_progress` with input 150 stores 150, which
is outside [0,100]; the stored value is not clamped or validated. -/
theorem progress_150_stored :
    job_progress sampleProcessing (some 150) none 9 =
      Except.ok { sampleProcessing with progress := 150, updated_at := 9 } ∧
    ¬ ({ sampleProcessing with progress := 150, updated_at := 9 } : Job).progress ≤ 100 :=
  ⟨rfl, by decide⟩

/-- Claim C2, amended: every successful `job_progress` call that supplies a
progress value stores exactly that value, unvalidated; hence the stored value
lies in [0,100] exactly when the input does. -/
theorem progress_stored_verbatim (job : Job) (p : Int) (m : Option String)
    (now : Nat) (j2 : Job) (h : job_progress job (some p) m now = Except.ok j2) :
    j2.progress = p := by
  have hp := (job_progress_ok_fields h).2.2.2.2.2.2.2
  simpa using hp

/-- Claim C2, witness for the amended theorem at a concrete call. -/
theorem progress_stored_verbatim_witness :
    ({ sampleProcessing with progress := 42, updated_at := 3 } : Job).progress = 42 :=
  progress_stored_verbatim sampleProcessing 42 none 3
    { sampleProcessing with progress := 42, updated_at := 3 } rfl

/-- Claim C4, counterexample: `job_progress` against a `pending` job mutates
it (the code has no status precondition), refuting the first half of the
claim. -/
theorem progress_mutates_pending_job :
    samplePending.status = "pending" ∧
    job_progress samplePending (some 40) none 9 =
      Except.ok { samplePending with progress := 40, updated_at := 9 } ∧
    ({ samplePending with progress := 40, updated_at := 9 } : Job).progress ≠
      samplePending.progress :=
  ⟨rfl, rfl, by decide⟩

/-- Claim C4, amended: `job_progress` mutates any existing job regardless of
its status (no `processing` precondition exists), but no successful call ever
changes the `status` field. -/
theorem progress_any_status_keeps_status :
    (∀ (job : Job) (p : Option Int) (m : Option String) (now : Nat) (j2 : Job),
       job_progress job p m now = Except.ok j2 → j2.status = job.status) ∧
    (∀ (job : Job) (pv : Int) (now : Nat),
       ∃ j2, job_progress job (some pv) none now = Except.ok j2 ∧
         j2.progress = pv ∧ j2.status = job.status) := by
  constructor
  · intro job p m now j2 h
    exact (job_progress_ok_fields h).2.2.1
  · intro job pv now
    exact ⟨{ job with progress := pv, updated_at := now }, rfl, rfl, rfl⟩

/-- Claim C4, witness for the amended theorem at a concrete call. -/
theorem progress_any_status_keeps_status_witness :
    ({ samplePending with progress := 40, updated_at := 9 } : Job).status =
      samplePending.status :=
  progress_any_status_keeps_status.1 samplePending (some 40) none 9
    { samplePending with progress := 40, updated_at := 9 } rfl

/-- Claim C5, evaluation at the failing input: on the Postgres branch a claim
of the single pending job updates the stored row to `attempts = 1`, yet the
record placed in the response is the stale pre-update row whose `attempts` is
the pre-claim value 0, not 1 — contradicting the handler's own comment
"select updated row to return" (the fetched updated row is discarded and the
response is rebuilt from a not-yet-committed-visible ORM read). -/
theorem claim_pg_returns_stale_attempts :
    claim_job "postgresql" [samplePending] "render" "w1" 7 =
      some (samplePending, [claimUpdate samplePending "w1" 7]) ∧
    samplePending.attempts = 0 ∧
    (claimUpdate samplePending "w1" 7).attempts = 1 ∧
    ¬ samplePending.attempts = samplePending.attempts + 1 :=
  ⟨rfl, rfl, rfl, by decide⟩

/-- Supporting fact for C5's stored state (not the claim itself): every
successful claim stores the `attempts + 1` update of a pending row, leaves
every other row unchanged, and `job_progress`, `job_complete`, `job_fail`
never change `attempts`. -/
theorem attempts_stored_increment :
    (∀ (dialect : String) (store : List Job) (queue wid : String) (now : Nat)
       (j' : Job) (store' : List Job),
       claim_job dialect store queue wid now = some (j', store') →
       ∃ j, j ∈ store ∧ j.status = "pending" ∧ claimUpdate j wid now ∈ store' ∧
         (claimUpdate j wid now).attempts = j.attempts + 1 ∧
         ∀ x, x ∈ store' → x = claimUpdate j wid now ∨ x ∈ store) ∧
    (∀ (job : Job) (p : Option Int) (m : Option String) (now : Nat) (j2 : Job),
       job_progress job p m now = Except.ok j2 → j2.attempts = job.attempts) ∧
    (∀ (job : Job) (r : Option JsonVal) (now : Nat),
       (job_complete job r now).attempts = job.attempts) ∧
    (∀ (job : Job) (e : String) (now : Nat),
       (job_fail job e now).attempts = job.attempts) := by
  refine ⟨?_, ?_, fun _ _ _ => rfl, fun _ _ _ => rfl⟩
  · intro dialect store queue wid now j' store' h
    obtain ⟨j, hjs, _, hpend, hmem', _, _, hframe⟩ := claim_job_frame h
    exact ⟨j, hjs, hpend, hmem', rfl, hframe⟩
  · intro job p m now j2 h
    exact (job_progress_ok_fields h).2.2.2.1

/-- Witness for `attempts_stored_increment` at a concrete one-job table on
the fallback branch. -/
theorem attempts_stored_increment_witness :
    ∃ j, j ∈ [samplePending] ∧ j.status = "pending" ∧
      claimUpdate j "w1" 7 ∈ [claimUpdate samplePending "w1" 7] ∧
      (claimUpdate j "w1" 7).attempts = j.attempts + 1 ∧
      ∀ x, x ∈ [claimUpdate samplePending "w1" 7] →
        x = claimUpdate j "w1" 7 ∨ x ∈ [samplePending] := by
  obtain ⟨j, h1, h2, h3, h4, h5⟩ :=
    attempts_stored_increment.1 "sqlite" [samplePending] "render" "w1" 7
      (claimUpdate samplePending "w1" 7) [claimUpdate samplePending "w1" 7] rfl
  exact ⟨j, h1, h2, h3, h4, h5⟩

/-- Claim C6: a successful `claim_job` selects a pending row of the requested
queue whose `created_at` is minimal among all pending rows of that queue —
the `ORDER BY created_at ASC LIMIT 1` selection.  The returned record has
that row's identity, queue and `created_at` on both branches (on the
Postgres/CockroachDB branch it is the stale row itself, on the fallback
branch its claimed update). -/
theorem claim_returns_oldest_pending (dialect : String) (store : List Job)
    (queue wid : String) (now : Nat) (j' : Job) (store' : List Job)
    (h : claim_job dialect store queue wid now = some (j', store')) :
    ∃ j, j ∈ store ∧ j.queue = queue ∧ j.status = "pending" ∧
      j'.id = j.id ∧ j'.created_at = j.created_at ∧ j'.queue = j.queue ∧
      (isPgDialect dialect = true → j' = j) ∧
      (isPgDialect dialect = false → j' = claimUpdate j wid now) ∧
      ∀ k, k ∈ store → k.queue = queue → k.status = "pending" →
        j.created_at ≤ k.created_at := by
  obtain ⟨j, harg, _, hpg, hfb⟩ := claim_job_eq_some h
  have hmem : j ∈ store.filter fun x => x.queue = queue ∧ x.status = "pending" :=
    List.argmin_mem (Option.mem_def.mpr harg)
  obtain ⟨hjs, hpred⟩ := List.mem_filter.mp hmem
  simp only [decide_eq_true_eq] at hpred
  have hsame : j'.id = j.id ∧ j'.created_at = j.created_at ∧ j'.queue = j.queue := by
    cases hd : isPgDialect dialect with
    | true => rw [hpg hd]; exact ⟨rfl, rfl, rfl⟩
    | false => rw [hfb hd]; exact ⟨rfl, rfl, rfl⟩
  refine ⟨j, hjs, hpred.1, hpred.2, hsame.1, hsame.2.1, hsame.2.2, hpg, hfb, ?_⟩
  intro k hk hkq hks
  have hkf : k ∈ store.filter fun x => x.queue = queue ∧ x.status = "pending" :=
    List.mem_filter.mpr ⟨hk, by simp [hkq, hks]⟩
  exact List.le_of_mem_argmin hkf (Option.mem_def.mpr harg)

/-- Claim C6, witness: on a fallback-dialect queue with two pending jobs
(created at 10 and 3), the claim picks the older one. -/
theorem claim_returns_oldest_pending_witness :
    ∃ j, j ∈ [samplePending, { samplePending with id := 9, created_at := 3 }] ∧
      j.queue = "render" ∧ j.status = "pending" ∧
      (claimUpdate { samplePending with id := 9, created_at := 3 } "w1" 7).id = j.id ∧
      (claimUpdate { samplePending with id := 9, created_at := 3 } "w1" 7).created_at =
        j.created_at ∧
      (claimUpdate { samplePending with id := 9, created_at := 3 } "w1" 7).queue =
        j.queue ∧
      (isPgDialect "sqlite" = true →
        claimUpdate { samplePending with id := 9, created_at := 3 } "w1" 7 = j) ∧
      (isPgDialect "sqlite" = false →
        claimUpdate { samplePending with id := 9, created_at := 3 } "w1" 7 =
          claimUpdate j "w1" 7) ∧
      ∀ k, k ∈ [samplePending, { samplePending with id := 9, created_at := 3 }] →
        k.queue = "render" → k.status = "pending" → j.created_at ≤ k.created_at :=
  claim_returns_oldest_pending "sqlite"
    [samplePending, { samplePending with id := 9, created_at := 3 }] "render" "w1" 7
    (claimUpdate { samplePending with id := 9, created_at := 3 } "w1" 7)
    [samplePending, claimUpdate { samplePending with id := 9, created_at := 3 } "w1" 7]
    rfl

/-- Claim C7: `job_complete` sets `progress = 100` unconditionally and
replaces `result` wholesale with the caller-supplied value; `job_fail`
replaces `result` with the structured error object and leaves `progress`
unchanged; neither touches `attempts`. -/
theorem terminal_transition_effects :
    ∀ (job : Job) (res : JsonVal) (e : String) (now : Nat),
      (job_complete job (some res) now).progress = 100 ∧
      (job_complete job (some res) now).result = res ∧
      (job_fail job e now).result = JsonVal.jobj [("error", JsonVal.jstr e)] ∧
      (job_fail job e now).progress = job.progress ∧
      (job_complete job (some res) now).attempts = job.attempts ∧
      (job_fail job e now).attempts = job.attempts :=
  fun _ _ _ _ => ⟨rfl, rfl, rfl, rfl, rfl, rfl⟩

/-- Claim C9, about the stored record: `created_at` is never modified by any
operation (the claimed row keeps it, all other rows are unchanged), and every
state-changing operation (`claim_job`, `job_progress`, `job_complete`,
`job_fail`) sets the stored row's `updated_at` to the current time (the claim
does so in the UPDATE itself on both branches). -/
theorem created_immutable_updated_refreshed :
    (∀ (dialect : String) (store : List Job) (queue wid : String) (now : Nat)
       (j' : Job) (store' : List Job),
       claim_job dialect store queue wid now = some (j', store') →
       ∃ j, j ∈ store ∧ claimUpdate j wid now ∈ store' ∧
         (claimUpdate j wid now).created_at = j.created_at ∧
         (claimUpdate j wid now).updated_at = now ∧
         ∀ x, x ∈ store' → x = claimUpdate j wid now ∨ x ∈ store) ∧
    (∀ (job : Job) (p : Option Int) (m : Option String) (now : Nat) (j2 : Job),
       job_progress job p m now = Except.ok j2 →
       j2.created_at = job.created_at ∧ j2.updated_at = now) ∧
    (∀ (job : Job) (r : Option JsonVal) (now : Nat),
       (job_complete job r now).created_at = job.created_at ∧
       (job_complete job r now).updated_at = now) ∧
    (∀ (job : Job) (e : String) (now : Nat),
       (job_fail job e now).created_at = job.created_at ∧
       (job_fail job e now).updated_at = now) := by
  refine ⟨?_, ?_, fun _ _ _ => ⟨rfl, rfl⟩, fun _ _ _ => ⟨rfl, rfl⟩⟩
  · intro dialect store queue wid now j' store' h
    obtain ⟨j, hjs, _, _, hmem', _, _, hframe⟩ := claim_job_frame h
    exact ⟨j, hjs, hmem', rfl, rfl, hframe⟩
  · intro job p m now j2 h
    exact ⟨(job_progress_ok_fields h).2.2.2.2.1, (job_progress_ok_fields h).2.2.2.2.2.1⟩

/-- Claim C9, witness for the progress conjunct at a concrete call. -/
theorem created_immutable_updated_refreshed_witness :
    ({ sampleProcessing with progress := 42, updated_at := 3 } : Job).created_at =
      sampleProcessing.created_at ∧
    ({ sampleProcessing with progress := 42, updated_at := 3 } : Job).updated_at = 3 :=
  created_immutable_updated_refreshed.2.1 sampleProcessing (some 42) none 3
    { sampleProcessing with progress := 42, updated_at := 3 } rfl

/-- Claim C10: `job_complete` with the `result` field omitted from the body
replaces `result` with the empty object (discarding any accumulated
`result.logs`), while still setting `status = "completed"` and
`progress = 100`. -/
theorem complete_default_result_empty_object :
    ∀ (job : Job) (now : Nat),
      job_complete job none now =
        { job with status := "completed", progress := 100,
                   result := JsonVal.jobj [], updated_at := now } ∧
      logsOf (job_complete job none now).result = some [] :=
  fun _ _ => ⟨rfl, rfl⟩
